import Mathlib

/-!
Verification of the metadata-coordination layer of the influxdb cluster
repository: a shallow embedding of the meta client cache, poller,
submitter and change-aware mutation path from
src/services/meta/client.go, and of the cluster verification harness
from src/clustertest (cluster.go, commands.go and its later revision).
Machine integers are modelled as Nat/Int; Go nil pointers as Option;
fallible calls as Option/Except; the network is abstracted as explicit
outcome functions passed to each operation.
-/

namespace MetaSvc

/-- DatabaseInfo from the meta package: only the Name field is touched by
the code under verification. -/
structure DatabaseInfo where
  Name : String
deriving DecidableEq

/-- Data is the snapshot document held by the client cache: a version
index and the database list (the fields read by Client.Database and
Client.pollForUpdates / retryUntilSnapshot). -/
structure Data where
  Index : Nat
  Databases : List DatabaseInfo
deriving DecidableEq

/-- Client cache state: the stored snapshot, the identifier of the
current changed channel (gates are numbered in allocation order;
make of a new channel yields the next identifier), and the set of gate
identifiers that have been closed (= opened for waiters) so far. -/
structure CacheState where
  data : Data
  changed : Nat
  openedGates : List Nat
deriving DecidableEq

/-- The locked section of Client.pollForUpdates (client.go lines
327-335): idx := c.data.Index; c.data = data — unconditionally; if
idx < data.Index then close(c.changed) and c.changed = make(chan).
Returns the new state and whether the gate was signalled. -/
def install (s : CacheState) (newData : Data) : CacheState × Bool :=
  let idx := s.data.Index
  if idx < newData.Index then
    ({ data := newData, changed := s.changed + 1,
       openedGates := s.changed :: s.openedGates }, true)
  else
    ({ s with data := newData }, false)

/-- Client.WaitForDataChanged: returns the current changed channel. -/
def waitForDataChanged (s : CacheState) : Nat :=
  s.changed

/-- The cache state set up by Client.Open: a fresh unopened gate and a
first snapshot d0 obtained from retryUntilSnapshot. -/
def openState (d0 : Data) : CacheState :=
  { data := d0, changed := 0, openedGates := [] }

/-- Iterated installs: the cache after feeding a list of fetched
snapshots through the pollForUpdates locked section. -/
def installAll (s : CacheState) : List Data → CacheState
  | [] => s
  | d :: ds => installAll (install s d).1 ds

/-- Gate bookkeeping invariant of the cache: a gate identifier is opened
exactly when it is strictly below the current gate identifier; hence
among the allocated gates (identifiers up to changed) exactly the
current one is unopened. -/
def GateInv (s : CacheState) : Prop :=
  ∀ g, g ∈ s.openedGates ↔ g < s.changed

/-- The client record as far as the poll loop sees it: the cache plus
the closing flag (whether Close has already closed the closing
channel). -/
structure ClientGo where
  cache : CacheState
  closingClosed : Bool
deriving DecidableEq

/-- One iteration of Client.pollForUpdates (client.go lines 324-336)
after retryUntilSnapshot returned fetched: the body runs the locked
install section. Translated from the source: the loop has no check of
c.closing anywhere, so the closing flag is not consulted. -/
def pollIteration (c : ClientGo) (fetched : Data) : ClientGo :=
  { c with cache := (install c.cache fetched).1 }

/-- Client.Close (client.go lines 55-62): closes the closing channel
and nothing else. -/
def closeClient (c : ClientGo) : ClientGo :=
  { c with closingClosed := true }

/-- Client.retryUntilExec (client.go lines 282-291) with the network
call c.exec abstracted as execF (none = success, some e = the error for
that server). Returns the list of servers contacted, in order, and the
final error variable. Translated from the source: var err error; for
each server: err = exec(s); if err == nil return nil; after the loop
return err. -/
def retryUntilExecGo (execF : String → Option String) :
    List String → Option String → List String × Option String
  | [], errAcc => ([], errAcc)
  | s :: rest, _ =>
    match execF s with
    | none => ([s], none)
    | some e =>
      let r := retryUntilExecGo execF rest (some e)
      (s :: r.1, r.2)

/-- Entry point of retryUntilExec: the error variable starts nil. -/
def retryUntilExec (execF : String → Option String) (servers : List String) :
    List String × Option String :=
  retryUntilExecGo execF servers none

/-- Client.retryUntilSnapshot (client.go lines 365-390) with the
network call c.getSnapshot abstracted as fetch over server positions
(none = failure, some d = the fetched snapshot). State carried through
the loop: remaining fuel (the loop in the source is unbounded; fuel
only truncates the model), the local currentServer cursor, and the
number of backoff sleeps performed so far. On each iteration the
cursor is wrapped to 0 when it reaches the list length n, the server at
the cursor is polled, and on failure the cursor advances by one and one
sleep occurs. Returns the snapshot, the cursor value at the moment of
return, and the sleep count. -/
def retryUntilSnapshotGo (fetch : Nat → Option Data) (n : Nat) :
    Nat → Nat → Nat → Option (Data × Nat × Nat)
  | 0, _, _ => none
  | fuel + 1, cursor, sleeps =>
    let cur := if cursor ≥ n then 0 else cursor
    match fetch cur with
    | some d => some (d, cur, sleeps)
    | none => retryUntilSnapshotGo fetch n fuel (cur + 1) (sleeps + 1)

/-- The client value built by NewClient (client.go lines 35-43): the
data field is left at its zero value, i.e. a nil pointer, modelled as
none. -/
structure ClientInit where
  metaServers : List String
  tls : Bool
  data : Option Data
deriving DecidableEq

/-- NewClient from client.go lines 35-43. -/
def newClient (metaServers : List String) (tls : Bool) : ClientInit :=
  { metaServers := metaServers, tls := tls, data := none }

/-- The unguarded read idx := c.data.Index performed at the top of every
retryUntilSnapshot iteration (client.go line 370); on a nil data
pointer the read has no value (Go panics), modelled by the none
branch. Open (client.go line 48) calls retryUntilSnapshot before any
snapshot is installed, so this is the first access Open performs. -/
def snapshotIndexRead (c : ClientInit) : Option Nat :=
  c.data.map Data.Index

/-- Errors surfaced by the client mutation path. -/
inductive MetaError
  | execFailed (msg : String)
  | databaseNotFound (name : String)
deriving DecidableEq

/-- Client.Database (client.go lines 85-96): scan c.data.Databases in
order and return the first entry whose Name equals name, else the
database-not-found error. -/
def databaseLookup (d : Data) (name : String) : Except MetaError DatabaseInfo :=
  match d.Databases.find? (fun db => db.Name == name) with
  | some db => Except.ok db
  | none => Except.error (MetaError.databaseNotFound name)

/-- Ordered events performed by Client.CreateDatabase. -/
inductive ClientEvent
  | waitForChanged
  | submitCommand
  | waitOnGate
  | readCache
deriving DecidableEq

/-- Client.CreateDatabase (client.go lines 102-116): obtain the changed
channel, submit the command via retryUntilExec, on error return it at
once; otherwise block on the channel, then re-read the cache and
resolve the database by name. The submission outcome is abstracted as
submitErr and the snapshot visible after the gate opens as
dataAfterWait; the event trace records the order of the steps. -/
def createDatabase (name : String) (submitErr : Option MetaError)
    (dataAfterWait : Data) : List ClientEvent × Except MetaError DatabaseInfo :=
  match submitErr with
  | some e =>
    ([ClientEvent.waitForChanged, ClientEvent.submitCommand], Except.error e)
  | none =>
    ([ClientEvent.waitForChanged, ClientEvent.submitCommand,
      ClientEvent.waitOnGate, ClientEvent.readCache],
     databaseLookup dataAfterWait name)

end MetaSvc

namespace Clustertest

/-- One cell of a tabular query result: the Go code sees interface
values and type-asserts strings, json numbers and bools; other denotes
any value of another dynamic type. json numbers are modelled as
integers (Int64 conversion of non-integral numbers, out of scope for
the claims, is folded into other). -/
inductive Cell
  | str (s : String)
  | num (n : Int)
  | boolean (b : Bool)
  | other
deriving DecidableEq

/-- One series row of a client result: name, column labels and value
rows. -/
structure Row where
  name : String
  columns : List String
  values : List (List Cell)
deriving DecidableEq

/-- A client query result as consumed by the harness: its Series
field. -/
structure QueryResult where
  series : List Row
deriving DecidableEq

/-- columnIDX (commands.go lines 262-269, part_003 lines 344-352):
scan the column labels in order and return the index of the first one
equal to s; error when absent. -/
def columnIDXGo (s : String) : List String → Nat → Except String Nat
  | [], _ => Except.error ("cannot find column called " ++ s)
  | c :: rest, i =>
    if c == s then Except.ok i else columnIDXGo s rest (i + 1)

/-- columnIDX entry point: the scan starts at index 0. -/
def columnIDX (s : String) (columns : List String) : Except String Nat :=
  columnIDXGo s columns 0

/-- toInt (part_003 lines 355-366): assert a json.Number and convert;
any other dynamic type is an error. -/
def toInt (v : Cell) : Except String Int :=
  match v with
  | Cell.num n => Except.ok n
  | _ => Except.error "could not assert as json.Number"

/-- The string type assertion value[idx].(string) with its error path
(parseStringError). -/
def asString (v : Cell) : Except String String :=
  match v with
  | Cell.str s => Except.ok s
  | _ => Except.error "could not parse as string"

/-- The bool type assertion with its error path (parseBoolError). -/
def asBool (v : Cell) : Except String Bool :=
  match v with
  | Cell.boolean b => Except.ok b
  | _ => Except.error "could not parse as bool"

/-- Indexing value[idx] into a value row; in Go an out-of-range index
panics, modelled as an error value. -/
def cellAt (value : List Cell) (i : Nat) : Except String Cell :=
  match value.get? i with
  | some c => Except.ok c
  | none => Except.error "index out of range"

/-- The commands supported by parseResult in the part_003 revision of
commands.go. -/
inductive Command
  | showServers
  | showDatabases
  | showMeasurements
  | showSeries
  | showTagKeys
  | showTagValues
  | showFieldKeys
  | showRetentionPolicies
deriving DecidableEq

/-- Parsed retention policy data (part_003 lines 42-47); Duration is
the nanosecond count held by a Go time.Duration. -/
structure RetentionPolicy where
  Name : String
  Duration : Int
  Replication : Int
  IsDefault : Bool
deriving DecidableEq

/-- commandResult (part_003 lines 29-39); the Go maps are modelled as
functions with the zero value of the range as default, matching the
append-to-missing-key and overwrite semantics used by parseResult. -/
structure CommandResult where
  dataServers : Int → Option String
  metaServers : Int → Option String
  databases : List String
  measurements : List String
  series : String → List String
  tagKeys : String → List String
  tagValues : String → List String
  fieldKeys : String → List String
  retentionPolicies : String → Option RetentionPolicy

/-- The empty commandResult built at the top of parseResult. -/
def emptyCommandResult : CommandResult :=
  { dataServers := fun _ => none
    metaServers := fun _ => none
    databases := []
    measurements := []
    series := fun _ => []
    tagKeys := fun _ => []
    tagValues := fun _ => []
    fieldKeys := fun _ => []
    retentionPolicies := fun _ => none }

/-- m[k] = append(m[k], v) on a string-keyed map of string slices. -/
def appendAt (m : String → List String) (k v : String) : String → List String :=
  fun x => if x == k then m k ++ [v] else m x

/-- The body of the inner loop of parseResult (part_003 lines 178-331)
for one value row of one series row: the emptiness check followed by
the per-command switch. parseDuration stands for the external stdlib
call time.ParseDuration used by the retention-policy case. -/
def parseValue (parseDuration : String → Except String Int) (c : Command)
    (rowName : String) (cols : List String) (value : List Cell)
    (res : CommandResult) : Except String CommandResult :=
  if value.isEmpty then Except.error "value is empty"
  else
    match c with
    | Command.showServers => do
      let idIDX ← columnIDX "id" cols
      let addrIDX ← columnIDX "http_addr" cols
      let idCell ← cellAt value idIDX
      let id ← toInt idCell
      let addrCell ← cellAt value addrIDX
      let addr ← asString addrCell
      match rowName with
      | "data_nodes" =>
        Except.ok { res with
          dataServers := fun x => if x == id then some addr else res.dataServers x }
      | "meta_nodes" =>
        Except.ok { res with
          metaServers := fun x => if x == id then some addr else res.metaServers x }
      | _ => Except.error ("unknown row name " ++ rowName)
    | Command.showDatabases => do
      let idx ← columnIDX "name" cols
      let cell ← cellAt value idx
      let name ← asString cell
      Except.ok { res with databases := res.databases ++ [name] }
    | Command.showMeasurements => do
      let idx ← columnIDX "name" cols
      let cell ← cellAt value idx
      let name ← asString cell
      Except.ok { res with measurements := res.measurements ++ [name] }
    | Command.showSeries => do
      let idx ← columnIDX "_key" cols
      let cell ← cellAt value idx
      let key ← asString cell
      Except.ok { res with series := appendAt res.series rowName key }
    | Command.showTagKeys => do
      let tkIDX ← columnIDX "tagKey" cols
      let cell ← cellAt value tkIDX
      let tagKey ← asString cell
      Except.ok { res with tagKeys := appendAt res.tagKeys rowName tagKey }
    | Command.showTagValues => do
      let tvIDX ← columnIDX "value" cols
      let cell ← cellAt value tvIDX
      let tagValue ← asString cell
      Except.ok { res with tagValues := appendAt res.tagValues rowName tagValue }
    | Command.showFieldKeys => do
      let fkIDX ← columnIDX "fieldKey" cols
      let cell ← cellAt value fkIDX
      let fieldKey ← asString cell
      Except.ok { res with fieldKeys := appendAt res.fieldKeys rowName fieldKey }
    | Command.showRetentionPolicies => do
      let nameIDX ← columnIDX "name" cols
      let durIDX ← columnIDX "duration" cols
      let replIDX ← columnIDX "replicaN" cols
      let defIDX ← columnIDX "default" cols
      let nameCell ← cellAt value nameIDX
      let rpName ← asString nameCell
      let durCell ← cellAt value durIDX
      let ds ← asString durCell
      let dur ← parseDuration ds
      let replCell ← cellAt value replIDX
      let repl ← toInt replCell
      let defCell ← cellAt value defIDX
      let isDef ← asBool defCell
      let rp : RetentionPolicy :=
        { Name := rpName, Duration := dur, Replication := repl, IsDefault := isDef }
      Except.ok { res with
        retentionPolicies := fun x => if x == rpName then some rp else res.retentionPolicies x }

/-- The inner loop of parseResult over the value rows of one series
row. -/
def parseValues (parseDuration : String → Except String Int) (c : Command)
    (rowName : String) (cols : List String) :
    List (List Cell) → CommandResult → Except String CommandResult
  | [], res => Except.ok res
  | v :: vs, res => do
    let res1 ← parseValue parseDuration c rowName cols v res
    parseValues parseDuration c rowName cols vs res1

/-- The outer loop of parseResult over the series rows. -/
def parseRows (parseDuration : String → Except String Int) (c : Command) :
    List Row → CommandResult → Except String CommandResult
  | [], res => Except.ok res
  | r :: rs, res => do
    let res1 ← parseValues parseDuration c r.name r.columns r.values res
    parseRows parseDuration c rs res1

/-- parseResult from the part_003 revision of commands.go (lines
168-334): fold the per-row, per-value parsing over the result, starting
from the fresh commandResult. -/
def parseResult (parseDuration : String → Except String Int) (c : Command)
    (result : QueryResult) : Except String CommandResult :=
  parseRows parseDuration c result.series emptyCommandResult

/-- Outcome of one clt.Query call as seen by local.query: a transport
error from Query itself, a response-level error (qr.Error()), or the
Results slice of the response. -/
inductive ClientQueryOutcome
  | transportErr (e : String)
  | respErr (e : String)
  | results (rs : List QueryResult)
deriving DecidableEq

/-- A response value (cluster.go lines 328-332): node id, the first
result when one was obtained, and the error otherwise. -/
structure NodeResponse where
  nodeID : Int
  result : Option QueryResult
  err : Option String
deriving DecidableEq

/-- Lookup of c.clients[id]; none models the missing-client branch. -/
def clientFor (clients : List (Int × ClientQueryOutcome)) (id : Int) :
    Option ClientQueryOutcome :=
  (clients.find? (fun p => p.1 == id)).map Prod.snd

/-- local.query (cluster.go lines 382-411): build the response for one
node, turning each failure branch into an error response and otherwise
carrying qr.Results[0]. -/
def queryNode (clients : List (Int × ClientQueryOutcome)) (id : Int) : NodeResponse :=
  match clientFor clients id with
  | none =>
    { nodeID := id, result := none, err := some "cannot find client for node" }
  | some (ClientQueryOutcome.transportErr e) =>
    { nodeID := id, result := none, err := some e }
  | some (ClientQueryOutcome.respErr e) =>
    { nodeID := id, result := none, err := some e }
  | some (ClientQueryOutcome.results []) =>
    { nodeID := id, result := none, err := some "expected some results" }
  | some (ClientQueryOutcome.results (r :: _)) =>
    { nodeID := id, result := some r, err := none }

/-- local.QueryAll (cluster.go lines 337-357): one task per data node
puts the response of local.query for that node on the channel, and a
final task closes the channel once all have finished. The channel is
modelled by the list of delivered responses (the multiset is
determined; delivery order on the real channel is scheduler-dependent
and is fixed here to the iteration order of the node list) paired with
the closed flag, which is true because the closing task always runs
after the wait group drains. -/
def queryAll (clients : List (Int × ClientQueryOutcome)) (dataNodes : List Int) :
    List NodeResponse × Bool :=
  (dataNodes.map (queryNode clients), true)

/-- Go strconv.Atoi digit accumulation over a digit list. -/
def digitsVal (l : List Char) : Nat :=
  l.foldl (fun acc c => acc * 10 + (c.toNat - 48)) 0

/-- Go strconv.Atoi (stdlib dependency of shiftPort): an optional
leading sign followed by at least one decimal digit; anything else is a
syntax error, and a decimal value outside the 64-bit int range (the
platform int of ParseInt with bitSize 0) is a range error, Go returning
ErrRange; shiftPort treats both error kinds alike, so each is modelled
as none. -/
def atoi (s : List Char) : Option Int :=
  match s with
  | [] => none
  | c :: rest =>
    if c = '+' then
      if rest ≠ [] ∧ rest.all Char.isDigit then
        if (digitsVal rest : Int) ≤ 2 ^ 63 - 1 then some (digitsVal rest : Int)
        else none
      else none
    else if c = '-' then
      if rest ≠ [] ∧ rest.all Char.isDigit then
        if (digitsVal rest : Int) ≤ 2 ^ 63 then some (-(digitsVal rest : Int))
        else none
      else none
    else
      if (c :: rest).all Char.isDigit then
        if (digitsVal (c :: rest) : Int) ≤ 2 ^ 63 - 1 then
          some (digitsVal (c :: rest) : Int)
        else none
      else none

/-- Wrap-around of 64-bit two's complement Go int arithmetic: the
representative of x in the interval from -(2 to the 63) up to
2 to the 63 excluded. -/
def int64Wrap (x : Int) : Int :=
  (x + 2 ^ 63) % 2 ^ 64 - 2 ^ 63

/-- strings.Split(in, colon) on character lists: every colon separates,
adjacent colons yield empty parts, and the result is never empty. -/
def splitOnColon : List Char → List (List Char)
  | [] => [[]]
  | c :: rest =>
    if c = ':' then [] :: splitOnColon rest
    else
      match splitOnColon rest with
      | [] => [[c]]
      | p :: ps => (c :: p) :: ps

/-- Decimal rendering of fmt.Sprintf with a signed integer verb. -/
def intChars (i : Int) : List Char :=
  if i < 0 then '-' :: Nat.toDigits 10 i.natAbs else Nat.toDigits 10 i.natAbs

/-- shiftPort (part_002 lines 71-86): split the address on colons;
more than two parts is an error; parse the last part as the port via
Atoi; a one-part input is rendered as the shifted port alone, otherwise
as host colon shifted port. The Go addition port + delta is over the
platform int and wraps on overflow, hence the int64Wrap. -/
def shiftPort (input : List Char) (delta : Int) : Option (List Char) :=
  let parts := splitOnColon input
  if parts.length > 2 then none
  else
    match atoi (parts.getLastD []) with
    | none => none
    | some port =>
      if parts.length = 1 then some (intChars (int64Wrap (port + delta)))
      else some (parts.headD [] ++ ':' :: intChars (int64Wrap (port + delta)))

end Clustertest

open MetaSvc Clustertest

/-! Helper lemmas about the meta client embedding. -/

/-- The pollForUpdates locked section always stores the fetched
snapshot, whatever its index. -/
theorem install_fst_data (s : CacheState) (d : Data) :
    (install s d).1.data = d := by
  unfold install
  by_cases h : s.data.Index < d.Index <;> simp [h]

/-- When the fetched index does not advance, the gate bookkeeping is
untouched and no signal is emitted. -/
theorem install_stale_gates (s : CacheState) (d : Data)
    (h : d.Index ≤ s.data.Index) :
    (install s d).2 = false ∧ (install s d).1.changed = s.changed ∧
      (install s d).1.openedGates = s.openedGates := by
  unfold install
  simp [Nat.not_lt_of_le h]

/-- The signal flag of the locked section is exactly the strict index
comparison. -/
theorem install_snd_iff (s : CacheState) (d : Data) :
    (install s d).2 = true ↔ s.data.Index < d.Index := by
  unfold install
  by_cases h : s.data.Index < d.Index <;> simp [h]

/-- One install preserves the gate invariant. -/
theorem gateInv_install (s : CacheState) (d : Data) (hs : GateInv s) :
    GateInv (install s d).1 := by
  unfold install
  by_cases h : s.data.Index < d.Index <;> simp [h, GateInv] <;> intro g
  · rw [Or.comm]
    rw [show (g ∈ s.openedGates ↔ g < s.changed) from hs g]
    omega
  · exact hs g

/-- Installs never remove a gate from the opened set. -/
theorem install_openedGates_mono (s : CacheState) (d : Data) (g : Nat)
    (hg : g ∈ s.openedGates) : g ∈ (install s d).1.openedGates := by
  unfold install
  by_cases h : s.data.Index < d.Index <;> simp [h, hg]

/-- The invariant holds along any sequence of installs. -/
theorem gateInv_installAll (ds : List Data) :
    ∀ s : CacheState, GateInv s → GateInv (installAll s ds) := by
  induction ds with
  | nil => intro s hs; simpa [installAll] using hs
  | cons d ds ih =>
    intro s hs
    simpa [installAll] using ih (install s d).1 (gateInv_install s d hs)

/-- Database resolution only returns an entry carrying the requested
name. -/
theorem databaseLookup_ok_name (d : Data) (name : String) (db : DatabaseInfo)
    (h : databaseLookup d name = Except.ok db) : db.Name = name := by
  unfold databaseLookup at h
  cases hf : d.Databases.find? (fun db => db.Name == name) with
  | none => rw [hf] at h; cases h
  | some db0 =>
    rw [hf] at h
    cases h
    have := List.find?_some hf
    simpa using this

/-- When no stored database carries the requested name, resolution
returns the not-found error. -/
theorem databaseLookup_absent (d : Data) (name : String)
    (h : ∀ db ∈ d.Databases, db.Name ≠ name) :
    databaseLookup d name = Except.error (MetaError.databaseNotFound name) := by
  unfold databaseLookup
  have hf : d.Databases.find? (fun db => db.Name == name) = none := by
    apply List.find?_eq_none.mpr
    intro db hdb
    simpa using h db hdb
  rw [hf]

/-- Claim C1: change-aware mutation correctness of CreateDatabase. For
every database name, the change-notification handle is obtained before
the command is submitted; a submission error is returned without
waiting on the handle; on success the call blocks on the handle, then
re-reads the cache and resolves the database by name, and any resolved
object carries exactly the requested name, with a not-found error when
the name is absent from the re-read snapshot. -/
theorem createDatabase_changeAware_correct (name : String)
    (submitErr : Option MetaError) (dataAfterWait : Data) :
    ((createDatabase name submitErr dataAfterWait).1.take 2 =
        [ClientEvent.waitForChanged, ClientEvent.submitCommand])
  ∧ (∀ e, submitErr = some e →
      (createDatabase name submitErr dataAfterWait).2 = Except.error e ∧
        ClientEvent.waitOnGate ∉ (createDatabase name submitErr dataAfterWait).1)
  ∧ (submitErr = none →
      (createDatabase name submitErr dataAfterWait).1 =
        [ClientEvent.waitForChanged, ClientEvent.submitCommand,
         ClientEvent.waitOnGate, ClientEvent.readCache] ∧
      (createDatabase name submitErr dataAfterWait).2 =
        databaseLookup dataAfterWait name)
  ∧ (∀ db, (createDatabase name submitErr dataAfterWait).2 = Except.ok db →
      db.Name = name)
  ∧ ((∀ db ∈ dataAfterWait.Databases, db.Name ≠ name) → submitErr = none →
      (createDatabase name submitErr dataAfterWait).2 =
        Except.error (MetaError.databaseNotFound name)) := by
  cases submitErr with
  | some e =>
    refine ⟨rfl, ?_, ?_, ?_, ?_⟩
    · intro e0 he
      cases he
      exact ⟨rfl, by simp [createDatabase]⟩
    · intro h; cases h
    · intro db hdb; simp [createDatabase] at hdb
    · intro _ h; cases h
  | none =>
    refine ⟨rfl, ?_, ?_, ?_, ?_⟩
    · intro e0 he; cases he
    · exact fun _ => ⟨rfl, rfl⟩
    · intro db hdb
      exact databaseLookup_ok_name dataAfterWait name db hdb
    · intro habs _
      simpa [createDatabase] using databaseLookup_absent dataAfterWait name habs

/-- Witness for claim C1 at a concrete snapshot holding the requested
database. -/
theorem createDatabase_changeAware_correct_witness :
    (createDatabase "foo" none ⟨4, [⟨"bar"⟩, ⟨"foo"⟩]⟩).1 =
      [ClientEvent.waitForChanged, ClientEvent.submitCommand,
       ClientEvent.waitOnGate, ClientEvent.readCache]
  ∧ (createDatabase "foo" none ⟨4, [⟨"bar"⟩, ⟨"foo"⟩]⟩).2 =
      Except.ok ⟨"foo"⟩ := by
  have h := createDatabase_changeAware_correct "foo" none ⟨4, [⟨"bar"⟩, ⟨"foo"⟩]⟩
  refine ⟨(h.2.2.1 rfl).1, ?_⟩
  rw [(h.2.2.1 rfl).2]
  rfl

/-- Claim C2, counterexample: the claim states that a snapshot with
index less than or equal to the current index leaves the stored
snapshot unchanged and that cached indexes never decrease; installing
a snapshot of index 3 over a cache at index 5 overwrites the stored
snapshot and regresses the cached index. -/
theorem install_stale_replaces_counterexample :
    ((install (openState ⟨5, [⟨"keep"⟩]⟩) ⟨3, []⟩).1.data = ⟨3, []⟩)
  ∧ ((⟨3, []⟩ : Data).Index ≤ (openState ⟨5, [⟨"keep"⟩]⟩).data.Index)
  ∧ ((install (openState ⟨5, [⟨"keep"⟩]⟩) ⟨3, []⟩).1.data ≠
        (openState ⟨5, [⟨"keep"⟩]⟩).data)
  ∧ ((install (openState ⟨5, [⟨"keep"⟩]⟩) ⟨3, []⟩).1.data.Index <
        (openState ⟨5, [⟨"keep"⟩]⟩).data.Index) := by
  decide

/-- Claim C2, amended: every install stores the fetched snapshot
unconditionally; the change gate is signalled iff the new index is
strictly greater than the current one, and on a stale or equal index no
signal occurs and the gate state is untouched (only the snapshot is
overwritten). -/
theorem install_replace_and_signal (s : CacheState) (d : Data) :
    ((install s d).1.data = d)
  ∧ ((install s d).2 = true ↔ s.data.Index < d.Index)
  ∧ (d.Index ≤ s.data.Index →
      (install s d).2 = false ∧ (install s d).1.changed = s.changed ∧
        (install s d).1.openedGates = s.openedGates) :=
  ⟨install_fst_data s d, install_snd_iff s d, install_stale_gates s d⟩

/-- Witness for the amended claim C2 at a stale fetched snapshot. -/
theorem install_replace_and_signal_witness :
    ((install (openState ⟨5, []⟩) ⟨3, []⟩).1.data = ⟨3, []⟩)
  ∧ ((install (openState ⟨5, []⟩) ⟨3, []⟩).2 = false) := by
  have h := install_replace_and_signal (openState ⟨5, []⟩) ⟨3, []⟩
  exact ⟨h.1, (h.2.2 (by decide)).1⟩

/-- Claim C3: change-gate invariant. The initial cache has exactly one
unopened gate; the locked install section preserves the invariant that
a gate is opened exactly when its identifier is below the current one,
so among allocated gates exactly the current gate is unopened; opened
gates stay opened across installs; when the index strictly advances,
the gate returned by WaitForDataChanged before the install is opened by
it and is replaced, in the same locked section, by a fresh unopened
gate; the invariant holds along every install sequence; and
WaitForDataChanged always returns the current gate. -/
theorem changeGate_invariant_preserved (d0 : Data) (ds : List Data) :
    GateInv (openState d0)
  ∧ (∀ s d, GateInv s → GateInv (install s d).1)
  ∧ (∀ s d g, g ∈ s.openedGates → g ∈ (install s d).1.openedGates)
  ∧ (∀ s d, GateInv s → s.data.Index < d.Index →
      waitForDataChanged s ∈ (install s d).1.openedGates ∧
      waitForDataChanged (install s d).1 ∉ (install s d).1.openedGates ∧
      waitForDataChanged (install s d).1 = s.changed + 1)
  ∧ GateInv (installAll (openState d0) ds)
  ∧ (∀ s : CacheState, GateInv s → ∃! g, g ≤ s.changed ∧ g ∉ s.openedGates)
  ∧ (∀ s : CacheState, waitForDataChanged s = s.changed) := by
  have hinit : GateInv (openState d0) := by simp [GateInv, openState]
  refine ⟨hinit, gateInv_install, install_openedGates_mono, ?_, gateInv_installAll ds _ hinit, ?_, fun s => rfl⟩
  · intro s d hs hadv
    have hgoal : (install s d).1 =
        ⟨d, s.changed + 1, s.changed :: s.openedGates⟩ := by
      unfold install; simp [hadv]
    rw [hgoal]
    show s.changed ∈ s.changed :: s.openedGates ∧
        s.changed + 1 ∉ s.changed :: s.openedGates ∧ s.changed + 1 = s.changed + 1
    refine ⟨List.mem_cons_self _ _, ?_, rfl⟩
    intro hmem
    rcases List.mem_cons.mp hmem with h | h
    · omega
    · have := (hs _).mp h
      omega
  · intro s hs
    refine ⟨s.changed, ⟨Nat.le_refl _, ?_⟩, ?_⟩
    · intro hmem
      have := (hs s.changed).mp hmem
      omega
    · intro g ⟨hle, hnm⟩
      by_contra hne
      exact hnm ((hs g).mpr (Nat.lt_of_le_of_ne hle hne))

/-- Witness for claim C3: an advancing install on the freshly opened
cache opens gate 0 and makes gate 1 the current unopened gate. -/
theorem changeGate_invariant_preserved_witness :
    waitForDataChanged (openState ⟨0, []⟩) ∈
      (install (openState ⟨0, []⟩) ⟨1, []⟩).1.openedGates
  ∧ waitForDataChanged (install (openState ⟨0, []⟩) ⟨1, []⟩).1 = 1 := by
  have h := changeGate_invariant_preserved ⟨0, []⟩ []
  have h4 := h.2.2.2.1 (openState ⟨0, []⟩) ⟨1, []⟩ h.1 (by decide)
  exact ⟨h4.1, h4.2.2⟩

/-- Claim C4: the code contradicts the claim. The poll loop body never
consults the closing flag: an iteration performed after Close has set
the flag behaves exactly like one before, still installing the fetched
snapshot (and, per install, still able to signal the gate), so the
poller does not stop after Close. The claim that the shutdown signal is
checked at the top of each iteration is the intended behavior the code
fails to implement. -/
theorem pollIteration_ignores_closing (s : CacheState) (d : Data) (b : Bool) :
    (pollIteration (closeClient ⟨s, b⟩) d = ⟨(install s d).1, true⟩)
  ∧ ((pollIteration ⟨s, true⟩ d).cache = (pollIteration ⟨s, false⟩ d).cache)
  ∧ ((pollIteration (closeClient ⟨s, b⟩) d).cache.data = d) :=
  ⟨rfl, rfl, install_fst_data s d⟩

/-- Empty-prefix-safe description of one retryUntilExec run: servers
before the first success all fail, the first succeeding server ends the
scan. -/
theorem retryUntilExecGo_success (execF : String → Option String)
    (pre : List String) (s : String) (post : List String)
    (hpre : ∀ x ∈ pre, (execF x).isSome) (hs : execF s = none) :
    ∀ acc, retryUntilExecGo execF (pre ++ s :: post) acc = (pre ++ [s], none) := by
  induction pre with
  | nil => intro acc; simp [retryUntilExecGo, hs]
  | cons x pre ih =>
    intro acc
    have hx : (execF x).isSome := hpre x (List.mem_cons_self x pre)
    rcases Option.isSome_iff_exists.mp hx with ⟨e, he⟩
    have hpre2 : ∀ y ∈ pre, (execF y).isSome := fun y hy =>
      hpre y (List.mem_cons_of_mem x hy)
    simp [retryUntilExecGo, he, ih hpre2 (some e)]

/-- When every server fails, the whole list is contacted and the error
of the last server is returned. -/
theorem retryUntilExecGo_allfail (execF : String → Option String) :
    ∀ (servers : List String) (h : servers ≠ [])
      (_ : ∀ x ∈ servers, (execF x).isSome) (acc : Option String),
      retryUntilExecGo execF servers acc = (servers, execF (servers.getLast h)) := by
  intro servers
  induction servers with
  | nil => intro h; exact absurd rfl h
  | cons x rest ih =>
    intro _ hall acc
    have hx : (execF x).isSome := hall x (List.mem_cons_self x rest)
    rcases Option.isSome_iff_exists.mp hx with ⟨e, he⟩
    cases rest with
    | nil => simp [retryUntilExecGo, he, List.getLast]
    | cons y rest2 =>
      have hrest : ∀ z ∈ y :: rest2, (execF z).isSome := fun z hz =>
        hall z (List.mem_cons_of_mem x hz)
      have hne : (y :: rest2) ≠ [] := by simp
      have hrec := ih hne hrest (some e)
      calc retryUntilExecGo execF (x :: y :: rest2) acc
          = (x :: (retryUntilExecGo execF (y :: rest2) (some e)).1,
             (retryUntilExecGo execF (y :: rest2) (some e)).2) := by
            simp [retryUntilExecGo, he]
        _ = (x :: y :: rest2, execF ((y :: rest2).getLast hne)) := by
            rw [hrec]
        _ = (x :: y :: rest2, execF ((x :: y :: rest2).getLast (by simp))) := by
            rw [List.getLast_cons hne]

/-- An error outcome means the scan reached the end of the list. -/
theorem retryUntilExecGo_error_exhausts (execF : String → Option String) :
    ∀ (servers : List String) (acc : Option String) (e : String),
      (retryUntilExecGo execF servers acc).2 = some e →
      (retryUntilExecGo execF servers acc).1 = servers := by
  intro servers
  induction servers with
  | nil => intro acc e _; rfl
  | cons x rest ih =>
    intro acc e herr
    cases hx : execF x with
    | none => simp [retryUntilExecGo, hx] at herr
    | some e0 =>
      simp [retryUntilExecGo, hx] at herr ⊢
      exact ih (some e0) e herr

/-- Claim C5: mutation submitter exhaustion semantics. retryUntilExec
contacts the configured servers in list order; the first success stops
the scan with a nil error and no later server is contacted; when every
server fails the whole list is contacted and the error observed from
the last server is returned; and an error is surfaced only when every
configured server has been tried. -/
theorem retryUntilExec_first_success_last_error (execF : String → Option String) :
    (∀ pre s post, (∀ x ∈ pre, (execF x).isSome) → execF s = none →
      retryUntilExec execF (pre ++ s :: post) = (pre ++ [s], none))
  ∧ (∀ (servers : List String) (h : servers ≠ []),
      (∀ x ∈ servers, (execF x).isSome) →
      retryUntilExec execF servers = (servers, execF (servers.getLast h)))
  ∧ (∀ (servers : List String) (e : String),
      (retryUntilExec execF servers).2 = some e →
      (retryUntilExec execF servers).1 = servers) :=
  ⟨fun pre s post hpre hs => retryUntilExecGo_success execF pre s post hpre hs none,
   fun servers h hall => retryUntilExecGo_allfail execF servers h hall none,
   fun servers e herr => retryUntilExecGo_error_exhausts execF servers none e herr⟩

/-- Witness for claim C5 on a three-server list whose first server
fails and whose second succeeds: only the first two are contacted. -/
theorem retryUntilExec_first_success_last_error_witness :
    retryUntilExec (fun s => if s == "b" then none else some ("fail " ++ s))
      ["a", "b", "c"] = (["a", "b"], none) := by
  have h := (retryUntilExec_first_success_last_error
    (fun s => if s == "b" then none else some ("fail " ++ s))).1
    ["a"] "b" ["c"] (by decide) (by decide)
  simpa using h

/-- A retryUntilSnapshot run that starts at cursor c, sees K failures
in a row and then a success, returns the snapshot of server c + K with
the cursor equal to c + K at the moment of return and one backoff sleep
per failure, provided no wrap occurs (c + K below the list length). -/
theorem retryUntilSnap_run (fetch : Nat → Option Data) (n : Nat) (d : Data) :
    ∀ (K c s fuel : Nat), c + K < n → K < fuel →
      (∀ i, c ≤ i → i < c + K → fetch i = none) →
      fetch (c + K) = some d →
      retryUntilSnapshotGo fetch n fuel c s = some (d, c + K, s + K) := by
  intro K
  induction K with
  | zero =>
    intro c s fuel hcn hfuel _ hsucc
    cases fuel with
    | zero => omega
    | succ f =>
      have hclt : ¬ c ≥ n := by omega
      simp only [retryUntilSnapshotGo, hclt, if_false]
      simp at hsucc
      simp [hsucc]
  | succ K ih =>
    intro c s fuel hcn hfuel hfail hsucc
    cases fuel with
    | zero => omega
    | succ f =>
      have hclt : ¬ c ≥ n := by omega
      have hfc : fetch c = none := hfail c (Nat.le_refl c) (by omega)
      simp only [retryUntilSnapshotGo, hclt, if_false, hfc]
      have hrec := ih (c + 1) (s + 1) f (by omega) (by omega)
        (fun i hi1 hi2 => hfail i (by omega) (by omega))
        (by rw [show c + 1 + K = c + (K + 1) by omega]; exact hsucc)
      rw [hrec]
      have h1 : c + 1 + K = c + (K + 1) := by omega
      have h2 : s + 1 + K = s + (K + 1) := by omega
      rw [h1, h2]

/-- Claim C6, counterexample: with a server list of length N = 2 whose
first K = 1 server fails and whose second succeeds, the scan returns
the snapshot of the second server with the internal cursor at 1 = K at
the moment of return; the cursor has advanced once per failure and not
on the success, so it has advanced by K, not by K + 1 (mod N) = 0 as
the claim states. -/
theorem retryUntilSnapshot_cursor_counterexample :
    retryUntilSnapshotGo (fun i => if i = 1 then some ⟨7, []⟩ else none) 2 2 0 0
      = some (⟨7, []⟩, 1, 1)
  ∧ (1 : Nat) ≠ (1 + 1) % 2 := by
  decide

/-- Claim C6, amended: for every server list of length N whose first K
servers fail (K below N), retryUntilSnapshot returns the snapshot
obtained from the server in position K (the K plus first server in the
list), having advanced its cursor once per failure and slept the fixed
backoff once per failure; at the moment of return the cursor equals K
(mod N), the success itself not advancing it. The fuel argument only
truncates the unbounded source loop and any value above K reproduces
it. -/
theorem retryUntilSnapshot_round_robin (fetch : Nat → Option Data)
    (n K fuel : Nat) (d : Data) (hK : K < n) (hfuel : K < fuel)
    (hfail : ∀ i, i < K → fetch i = none) (hsucc : fetch K = some d) :
    retryUntilSnapshotGo fetch n fuel 0 0 = some (d, K, K) ∧ K % n = K := by
  have h := retryUntilSnap_run fetch n d K 0 0 fuel (by omega) hfuel
    (fun i hi1 hi2 => hfail i (by omega)) (by simpa using hsucc)
  constructor
  · simpa using h
  · exact Nat.mod_eq_of_lt hK

/-- Witness for the amended claim C6 at N = 2, K = 1. -/
theorem retryUntilSnapshot_round_robin_witness :
    retryUntilSnapshotGo (fun i => if i = 1 then some ⟨9, [⟨"db"⟩]⟩ else none)
      2 5 0 0 = some (⟨9, [⟨"db"⟩]⟩, 1, 1) := by
  have h := retryUntilSnapshot_round_robin
    (fun i => if i = 1 then some ⟨9, [⟨"db"⟩]⟩ else none) 2 1 5 ⟨9, [⟨"db"⟩]⟩
    (by decide) (by decide)
    (fun i hi => by
      have : i = 0 := by omega
      subst this
      rfl)
    (by rfl)
  exact h.1

/-- Claim C9: NewClient leaves the cached snapshot pointer unset, and
the read of the snapshot index performed at the top of the first
retryUntilSnapshot iteration inside Open therefore hits the absent
(none) branch: the unguarded dereference of a nil snapshot is reachable
from the public Open interface. -/
theorem newClient_open_reads_nil_snapshot (metaServers : List String) (tls : Bool) :
    ((newClient metaServers tls).data = none)
  ∧ (snapshotIndexRead (newClient metaServers tls) = none) :=
  ⟨rfl, rfl⟩

/-- Every branch of local.query stamps the response with the polled
node id. -/
theorem queryNode_nodeID (clients : List (Int × ClientQueryOutcome)) (id : Int) :
    (queryNode clients id).nodeID = id := by
  unfold queryNode
  cases h : clientFor clients id with
  | none => rfl
  | some o =>
    cases o with
    | transportErr e => rfl
    | respErr e => rfl
    | results rs => cases rs with
      | nil => rfl
      | cons r rs => rfl

/-- Every branch of local.query produces either a result or an
error. -/
theorem queryNode_total (clients : List (Int × ClientQueryOutcome)) (id : Int) :
    (queryNode clients id).result.isSome ∨ (queryNode clients id).err.isSome := by
  unfold queryNode
  cases h : clientFor clients id with
  | none => right; rfl
  | some o =>
    cases o with
    | transportErr e => right; rfl
    | respErr e => right; rfl
    | results rs => cases rs with
      | nil => right; rfl
      | cons r rs => left; rfl

/-- Nodes absent from the fan-out list contribute no response. -/
theorem queryAll_filter_zero (clients : List (Int × ClientQueryOutcome)) (id : Int) :
    ∀ l : List Int, id ∉ l →
      ((l.map (queryNode clients)).filter (fun r => r.nodeID == id)).length = 0 := by
  intro l
  induction l with
  | nil => intro _; rfl
  | cons x xs ih =>
    intro hnm
    have hxid : x ≠ id := fun h => hnm (h ▸ List.mem_cons_self x xs)
    have hxs : id ∉ xs := fun h => hnm (List.mem_cons_of_mem x h)
    simp [List.filter_cons, queryNode_nodeID, hxid, ih hxs]

/-- A node in the fan-out list contributes exactly one response when
the list has no duplicates. -/
theorem queryAll_filter_one (clients : List (Int × ClientQueryOutcome)) (id : Int) :
    ∀ l : List Int, l.Nodup → id ∈ l →
      ((l.map (queryNode clients)).filter (fun r => r.nodeID == id)).length = 1 := by
  intro l
  induction l with
  | nil => intro _ hmem; cases hmem
  | cons x xs ih =>
    intro hnd hmem
    rcases List.mem_cons.mp hmem with h | h
    · subst h
      have hxs : id ∉ xs := (List.nodup_cons.mp hnd).1
      have h0 := queryAll_filter_zero clients id xs hxs
      simp [List.filter_cons, queryNode_nodeID, h0]
    · have hxid : x ≠ id := by
        intro hx
        exact (List.nodup_cons.mp hnd).1 (hx ▸ h)
      simp [List.filter_cons, queryNode_nodeID, hxid,
        ih (List.nodup_cons.mp hnd).2 h]

/-- Claim C7: fan-out completeness of QueryAll. For every registered
data-node list without duplicate ids, the channel delivers one response
per node (as many responses as nodes, exactly one per node id, each
stamped with an id from the list and carrying either a parsed result or
an error) and the channel ends closed; an erroring node contributes an
error response rather than preventing closure. -/
theorem queryAll_fanout_completeness (clients : List (Int × ClientQueryOutcome))
    (dataNodes : List Int) (hnd : dataNodes.Nodup) :
    ((queryAll clients dataNodes).1.length = dataNodes.length)
  ∧ (∀ id ∈ dataNodes,
      ((queryAll clients dataNodes).1.filter (fun r => r.nodeID == id)).length = 1)
  ∧ (∀ r ∈ (queryAll clients dataNodes).1, r.nodeID ∈ dataNodes)
  ∧ (∀ r ∈ (queryAll clients dataNodes).1, r.result.isSome ∨ r.err.isSome)
  ∧ ((queryAll clients dataNodes).2 = true) := by
  refine ⟨List.length_map _ _, ?_, ?_, ?_, rfl⟩
  · intro id hid
    exact queryAll_filter_one clients id dataNodes hnd hid
  · intro r hr
    rcases List.mem_map.mp hr with ⟨i, hi, hqi⟩
    rw [← hqi, queryNode_nodeID]
    exact hi
  · intro r hr
    rcases List.mem_map.mp hr with ⟨i, _, hqi⟩
    rw [← hqi]
    exact queryNode_total clients i

/-- Reduction of the Except monad bind on an error. -/
theorem exceptBind_err {α β : Type} (e : String) (f : α → Except String β) :
    (Except.error e >>= f) = Except.error e := rfl

/-- Reduction of the Except monad bind on a success. -/
theorem exceptBind_ok {α β : Type} (a : α) (f : α → Except String β) :
    (Except.ok a >>= f) = f a := rfl

/-- When the named column is absent, the scan reports the error from
every starting index. -/
theorem columnIDXGo_not_mem (s : String) :
    ∀ (cols : List String) (i : Nat), s ∉ cols →
      columnIDXGo s cols i = Except.error ("cannot find column called " ++ s) := by
  intro cols
  induction cols with
  | nil => intro i _; rfl
  | cons c rest ih =>
    intro i hnm
    have hcs : ¬ (c == s) = true := by
      simp only [beq_iff_eq]
      intro h
      exact hnm (h ▸ List.mem_cons_self c rest)
    unfold columnIDXGo
    rw [if_neg hcs]
    exact ih (i + 1) (fun h => hnm (List.mem_cons_of_mem c h))

/-- columnIDX on an absent name is the cannot-find error. -/
theorem columnIDX_not_mem (s : String) (cols : List String) (h : s ∉ cols) :
    columnIDX s cols = Except.error ("cannot find column called " ++ s) :=
  columnIDXGo_not_mem s cols 0 h

/-- A successful columnIDX scan starting at i lands at or after i on a
column labelled s. -/
theorem columnIDXGo_ok_get (s : String) :
    ∀ (cols : List String) (i j : Nat),
      columnIDXGo s cols i = Except.ok j → i ≤ j ∧ cols.get? (j - i) = some s := by
  intro cols
  induction cols with
  | nil => intro i j h; cases h
  | cons c rest ih =>
    intro i j h
    unfold columnIDXGo at h
    by_cases hcs : (c == s) = true
    · rw [if_pos hcs] at h
      cases h
      refine ⟨Nat.le_refl _, ?_⟩
      simp only [beq_iff_eq] at hcs
      simp [hcs]
    · rw [if_neg hcs] at h
      rcases ih (i + 1) j h with ⟨hle, hget⟩
      refine ⟨by omega, ?_⟩
      have hj : j - i = (j - (i + 1)) + 1 := by omega
      rw [hj]
      simpa using hget

/-- The index returned by columnIDX is a position carrying exactly the
requested column label. -/
theorem columnIDX_ok_get (s : String) (cols : List String) (j : Nat)
    (h : columnIDX s cols = Except.ok j) : cols.get? j = some s := by
  have := (columnIDXGo_ok_get s cols 0 j h).2
  simpa using this

/-- parseResult on a result holding one series row with one value row
reduces to the single parseValue step on the fresh commandResult. -/
theorem parseResult_single (pd : String → Except String Int) (c : Command)
    (rn : String) (cols : List String) (cells : List Cell) :
    parseResult pd c ⟨[⟨rn, cols, [cells]⟩]⟩ =
      parseValue pd c rn cols cells emptyCommandResult := by
  unfold parseResult parseRows parseValues
  cases h : parseValue pd c rn cols cells emptyCommandResult with
  | error e => simp [h, parseRows, parseValues, exceptBind_err, exceptBind_ok]
  | ok r => simp [h, parseRows, parseValues, exceptBind_err, exceptBind_ok]

/-- Claim C8: parseResult resolves every needed field by searching for
the named column. columnIDX finds exactly the position labelled with
the requested name and errors when the name is absent; for a tabular
result with one series row, each supported statement errors when its
named column (name for SHOW DATABASES and SHOW MEASUREMENTS, _key for
SHOW SERIES, tagKey for SHOW TAG KEYS, value for SHOW TAG VALUES,
fieldKey for SHOW FIELD KEYS, id and http_addr for SHOW SERVERS) is
absent from the column labels, and in particular a SHOW TAG VALUES row
is resolved through the cell sitting under the column named value,
wherever that column sits, as is a SHOW DATABASES row through the
column named name. -/
theorem parseResult_named_columns (pd : String → Except String Int)
    (rn : String) (cols : List String) (cells : List Cell) :
    (∀ nm j, columnIDX nm cols = Except.ok j → cols.get? j = some nm)
  ∧ (∀ nm, nm ∉ cols →
      columnIDX nm cols = Except.error ("cannot find column called " ++ nm))
  ∧ ("name" ∉ cols → cells ≠ [] →
      ∃ e, parseResult pd Command.showDatabases ⟨[⟨rn, cols, [cells]⟩]⟩ =
        Except.error e)
  ∧ ("name" ∉ cols → cells ≠ [] →
      ∃ e, parseResult pd Command.showMeasurements ⟨[⟨rn, cols, [cells]⟩]⟩ =
        Except.error e)
  ∧ ("_key" ∉ cols → cells ≠ [] →
      ∃ e, parseResult pd Command.showSeries ⟨[⟨rn, cols, [cells]⟩]⟩ =
        Except.error e)
  ∧ ("tagKey" ∉ cols → cells ≠ [] →
      ∃ e, parseResult pd Command.showTagKeys ⟨[⟨rn, cols, [cells]⟩]⟩ =
        Except.error e)
  ∧ ("value" ∉ cols → cells ≠ [] →
      ∃ e, parseResult pd Command.showTagValues ⟨[⟨rn, cols, [cells]⟩]⟩ =
        Except.error e)
  ∧ ("fieldKey" ∉ cols → cells ≠ [] →
      ∃ e, parseResult pd Command.showFieldKeys ⟨[⟨rn, cols, [cells]⟩]⟩ =
        Except.error e)
  ∧ ("id" ∉ cols → cells ≠ [] →
      ∃ e, parseResult pd Command.showServers ⟨[⟨rn, cols, [cells]⟩]⟩ =
        Except.error e)
  ∧ (∀ i, columnIDX "id" cols = Except.ok i → "http_addr" ∉ cols → cells ≠ [] →
      ∃ e, parseResult pd Command.showServers ⟨[⟨rn, cols, [cells]⟩]⟩ =
        Except.error e)
  ∧ (∀ i s, columnIDX "value" cols = Except.ok i →
      cells.get? i = some (Cell.str s) →
      ∃ r, parseResult pd Command.showTagValues ⟨[⟨rn, cols, [cells]⟩]⟩ =
        Except.ok r ∧ r.tagValues rn = [s])
  ∧ (∀ i s, columnIDX "name" cols = Except.ok i →
      cells.get? i = some (Cell.str s) →
      ∃ r, parseResult pd Command.showDatabases ⟨[⟨rn, cols, [cells]⟩]⟩ =
        Except.ok r ∧ r.databases = [s]) := by
  have hne : ∀ cs : List Cell, cs ≠ [] → cs.isEmpty = false := by
    intro cs h
    cases cs with
    | nil => exact absurd rfl h
    | cons a l => rfl
  refine ⟨fun nm j h => columnIDX_ok_get nm cols j h,
          fun nm h => columnIDX_not_mem nm cols h, ?_, ?_, ?_, ?_, ?_, ?_, ?_, ?_, ?_, ?_⟩
  · intro hnm hc
    rw [parseResult_single]
    unfold parseValue
    rw [if_neg (by simp [hne cells hc])]
    rw [columnIDX_not_mem _ _ hnm]
    exact ⟨_, rfl⟩
  · intro hnm hc
    rw [parseResult_single]
    unfold parseValue
    rw [if_neg (by simp [hne cells hc])]
    rw [columnIDX_not_mem _ _ hnm]
    exact ⟨_, rfl⟩
  · intro hnm hc
    rw [parseResult_single]
    unfold parseValue
    rw [if_neg (by simp [hne cells hc])]
    rw [columnIDX_not_mem _ _ hnm]
    exact ⟨_, rfl⟩
  · intro hnm hc
    rw [parseResult_single]
    unfold parseValue
    rw [if_neg (by simp [hne cells hc])]
    rw [columnIDX_not_mem _ _ hnm]
    exact ⟨_, rfl⟩
  · intro hnm hc
    rw [parseResult_single]
    unfold parseValue
    rw [if_neg (by simp [hne cells hc])]
    rw [columnIDX_not_mem _ _ hnm]
    exact ⟨_, rfl⟩
  · intro hnm hc
    rw [parseResult_single]
    unfold parseValue
    rw [if_neg (by simp [hne cells hc])]
    rw [columnIDX_not_mem _ _ hnm]
    exact ⟨_, rfl⟩
  · intro hnm hc
    rw [parseResult_single]
    unfold parseValue
    rw [if_neg (by simp [hne cells hc])]
    rw [columnIDX_not_mem _ _ hnm]
    exact ⟨_, rfl⟩
  · intro i hid hnm hc
    rw [parseResult_single]
    unfold parseValue
    rw [if_neg (by simp [hne cells hc])]
    rw [hid, columnIDX_not_mem _ _ hnm]
    exact ⟨_, rfl⟩
  · intro i s hcol hget
    have hlen : i < cells.length := by
      rcases List.get?_eq_some.mp hget with ⟨h, _⟩
      exact h
    have hc : cells ≠ [] := by
      intro h
      rw [h] at hlen
      simp at hlen
    rw [parseResult_single]
    unfold parseValue
    rw [if_neg (by simp [hne cells hc])]
    refine ⟨{ emptyCommandResult with
        tagValues := appendAt emptyCommandResult.tagValues rn s }, ?_, ?_⟩
    · rw [hcol]
      have hget2 : cells[i]? = some (Cell.str s) := by
        rw [← List.get?_eq_getElem?]
        exact hget
      simp [exceptBind_ok, cellAt, hget2, asString]
    · simp [appendAt, emptyCommandResult]
  · intro i s hcol hget
    have hlen : i < cells.length := by
      rcases List.get?_eq_some.mp hget with ⟨h, _⟩
      exact h
    have hc : cells ≠ [] := by
      intro h
      rw [h] at hlen
      simp at hlen
    rw [parseResult_single]
    unfold parseValue
    rw [if_neg (by simp [hne cells hc])]
    refine ⟨{ emptyCommandResult with
        databases := emptyCommandResult.databases ++ [s] }, ?_, ?_⟩
    · rw [hcol]
      have hget2 : cells[i]? = some (Cell.str s) := by
        rw [← List.get?_eq_getElem?]
        exact hget
      simp [exceptBind_ok, cellAt, hget2, asString]
    · simp [emptyCommandResult]

/-- Witness for claim C8: a SHOW TAG VALUES row whose value column sits
in second position is resolved through that column, and the absent
column case errors. -/
theorem parseResult_named_columns_witness :
    (∃ r, parseResult (fun _ => Except.error "nd") Command.showTagValues
        ⟨[⟨"cpu", ["other", "value"], [[Cell.num 1, Cell.str "s1"]]⟩]⟩ =
          Except.ok r ∧ r.tagValues "cpu" = ["s1"])
  ∧ (∃ e, parseResult (fun _ => Except.error "nd") Command.showTagValues
        ⟨[⟨"cpu", ["tagValue"], [[Cell.str "s1"]]⟩]⟩ = Except.error e) := by
  have h1 := parseResult_named_columns (fun _ => Except.error "nd")
    "cpu" ["other", "value"] [Cell.num 1, Cell.str "s1"]
  have h2 := parseResult_named_columns (fun _ => Except.error "nd")
    "cpu" ["tagValue"] [Cell.str "s1"]
  refine ⟨?_, ?_⟩
  · exact h1.2.2.2.2.2.2.2.2.2.2.1 1 "s1" (by rfl) (by rfl)
  · exact h2.2.2.2.2.2.2.1 (by decide) (by decide)

/-- Splitting a colon-free address yields the single whole part. -/
theorem splitOnColon_no_colon :
    ∀ cs : List Char, (':' : Char) ∉ cs → splitOnColon cs = [cs] := by
  intro cs
  induction cs with
  | nil => intro _; rfl
  | cons c rest ih =>
    intro h
    have hc : ¬ (c = ':') := fun hh => h (hh ▸ List.mem_cons_self c rest)
    have hrest : (':' : Char) ∉ rest := fun hh => h (List.mem_cons_of_mem c hh)
    unfold splitOnColon
    rw [if_neg hc, ih hrest]

/-- Splitting a host colon rest address peels the colon-free host off
as the first part. -/
theorem splitOnColon_append :
    ∀ host rest : List Char, (':' : Char) ∉ host →
      splitOnColon (host ++ ':' :: rest) = host :: splitOnColon rest := by
  intro host
  induction host with
  | nil =>
    intro rest _
    show splitOnColon (':' :: rest) = [] :: splitOnColon rest
    conv_lhs => unfold splitOnColon
    rw [if_pos rfl]
  | cons c hs ih =>
    intro rest h
    have hc : ¬ (c = ':') := fun hh => h (hh ▸ List.mem_cons_self c hs)
    have hhs : (':' : Char) ∉ hs := fun hh => h (List.mem_cons_of_mem c hh)
    show splitOnColon (c :: (hs ++ ':' :: rest)) = (c :: hs) :: splitOnColon rest
    conv_lhs => unfold splitOnColon
    rw [if_neg hc, ih rest hhs]

/-- The number of parts is one more than the number of colons. -/
theorem splitOnColon_length :
    ∀ cs : List Char, (splitOnColon cs).length = cs.count ':' + 1 := by
  intro cs
  induction cs with
  | nil => rfl
  | cons c rest ih =>
    by_cases hc : c = ':'
    · subst hc
      unfold splitOnColon
      rw [if_pos rfl]
      simp [List.count_cons, ih]
    · unfold splitOnColon
      rw [if_neg hc]
      cases hsp : splitOnColon rest with
      | nil =>
        rw [hsp] at ih
        simp at ih
      | cons p ps =>
        have hlen := ih
        rw [hsp] at hlen
        simp only [List.length_cons] at hlen
        simp [List.count_cons, hc, hlen]

/-- Claim C10, counterexample: the input 99999999999999999999 has the
bare-port shape and its final (only) colon-separated part is a decimal
integer, yet shiftPort returns an error instead of the shifted
address: strconv.Atoi rejects decimal values outside the 64-bit int
range with ErrRange, and shiftPort propagates the error. -/
theorem shiftPort_range_counterexample :
    ("99999999999999999999".data.all Char.isDigit = true)
  ∧ ((':' : Char) ∉ "99999999999999999999".data)
  ∧ shiftPort "99999999999999999999".data 1 = none := by
  decide

/-- Claim C10, amended: on a host:port address with a colon-free host
and a port accepted by Atoi, the host part is unchanged and the port
becomes the 64-bit wrap-around of port + delta, which equals
port + delta whenever that sum lies in the 64-bit int range (as at
every port and delta the repository uses); on a bare port the shifted
port alone is returned; an address with two or more colons is an
error, as is one whose final part Atoi rejects, both for non-numeric
ports and for decimal ports outside the 64-bit int range, in both the
host:port and bare shapes. -/
theorem shiftPort_spec (delta : Int) :
    (∀ (host p : List Char) (v : Int), (':' : Char) ∉ host → (':' : Char) ∉ p →
      atoi p = some v →
      shiftPort (host ++ ':' :: p) delta =
        some (host ++ ':' :: intChars (int64Wrap (v + delta))))
  ∧ (∀ (cs : List Char) (v : Int), (':' : Char) ∉ cs → atoi cs = some v →
      shiftPort cs delta = some (intChars (int64Wrap (v + delta))))
  ∧ (∀ x : Int, -(2 ^ 63) ≤ x → x < 2 ^ 63 → int64Wrap x = x)
  ∧ (∀ input : List Char, 2 ≤ input.count ':' → shiftPort input delta = none)
  ∧ (∀ host p : List Char, (':' : Char) ∉ host → (':' : Char) ∉ p →
      atoi p = none → shiftPort (host ++ ':' :: p) delta = none)
  ∧ (∀ cs : List Char, (':' : Char) ∉ cs → atoi cs = none →
      shiftPort cs delta = none)
  ∧ (∀ p : List Char, p ≠ [] → p.all Char.isDigit = true →
      2 ^ 63 - 1 < (digitsVal p : Int) → atoi p = none) := by
  refine ⟨?_, ?_, ?_, ?_, ?_, ?_, ?_⟩
  · intro host p v hh hp hv
    unfold shiftPort
    rw [splitOnColon_append host p hh, splitOnColon_no_colon p hp]
    simp [List.getLastD, hv]
  · intro cs v hcs hv
    unfold shiftPort
    rw [splitOnColon_no_colon cs hcs]
    simp [List.getLastD, hv]
  · intro x h1 h2
    unfold int64Wrap
    have hm : (x + 2 ^ 63) % 2 ^ 64 = x + 2 ^ 63 :=
      Int.emod_eq_of_lt (by omega) (by omega)
    omega
  · intro input hcount
    unfold shiftPort
    have hlen : 2 < (splitOnColon input).length := by
      rw [splitOnColon_length input]
      omega
    rw [if_pos hlen]
  · intro host p hh hp hv
    unfold shiftPort
    rw [splitOnColon_append host p hh, splitOnColon_no_colon p hp]
    simp [List.getLastD, hv]
  · intro cs hcs hv
    unfold shiftPort
    rw [splitOnColon_no_colon cs hcs]
    simp [List.getLastD, hv]
  · intro p hne hdig hrange
    cases p with
    | nil => exact absurd rfl hne
    | cons c rest =>
      have hcd : c.isDigit = true := by
        rw [List.all_cons, Bool.and_eq_true] at hdig
        exact hdig.1
      have hcp : ¬ (c = '+') := by
        intro h
        rw [h] at hcd
        simp at hcd
      have hcm : ¬ (c = '-') := by
        intro h
        rw [h] at hcd
        simp at hcd
      simp only [atoi]
      rw [if_neg hcp, if_neg hcm, if_pos hdig, if_neg (by omega)]

/-- Witness for the amended claim C10 at the concrete addresses of the
repository test suite and at a port above the 64-bit int range. -/
theorem shiftPort_spec_witness :
    shiftPort (':' :: "8080".data) 300 = some (':' :: "8380".data)
  ∧ shiftPort "8080".data (-100) = some "7980".data
  ∧ shiftPort "foo".data (-100) = none
  ∧ atoi "99999999999999999999".data = none := by
  refine ⟨?_, ?_, ?_, ?_⟩
  · have h := (shiftPort_spec 300).1 [] "8080".data 8080 (by decide) (by decide)
      (by decide)
    simp only [List.nil_append] at h
    rw [h]
    decide
  · have h := (shiftPort_spec (-100)).2.1 "8080".data 8080 (by decide) (by decide)
    rw [h]
    decide
  · exact (shiftPort_spec (-100)).2.2.2.2.2.1 "foo".data (by decide) (by decide)
  · exact (shiftPort_spec 0).2.2.2.2.2.2 "99999999999999999999".data
      (by decide) (by decide) (by decide)

/-- Witness for claim C7 on three nodes, one healthy, one with a
transport error, one with no client: three responses, one for node 2,
channel closed. -/
theorem queryAll_fanout_completeness_witness :
    ((queryAll [(1, ClientQueryOutcome.results [⟨[]⟩]),
                (2, ClientQueryOutcome.transportErr "boom")] [1, 2, 3]).1.length = 3)
  ∧ (((queryAll [(1, ClientQueryOutcome.results [⟨[]⟩]),
                 (2, ClientQueryOutcome.transportErr "boom")] [1, 2, 3]).1.filter
        (fun r => r.nodeID == 2)).length = 1)
  ∧ ((queryAll [(1, ClientQueryOutcome.results [⟨[]⟩]),
                (2, ClientQueryOutcome.transportErr "boom")] [1, 2, 3]).2 = true) := by
  have h := queryAll_fanout_completeness
    [(1, ClientQueryOutcome.results [⟨[]⟩]),
     (2, ClientQueryOutcome.transportErr "boom")] [1, 2, 3] (by decide)
  exact ⟨h.1, h.2.1 2 (by decide), h.2.2.2.2⟩
